import Mathlib

/-!
Verification development for the `yeti` demo tooling: a shallow embedding of
the correlated synthetic-dataset generator (`example/generate_data.py`), the
rule-provisioning client and message producer (`example/producer.py`), and the
two reference-data loaders (`example/load_mongodb.py`, `example/load_redis.py`).

Python's process-wide random source is embedded as an explicit stream of
natural-number draws (`RNG`), threaded through every generator in the order
the source consumes randomness.  External library primitives
(`random.randint`, `random.choice`, `random.uniform`, `random.choices`) are
modelled as pure functions of that stream; floats are modelled as rationals.
HTTP calls made by the provisioning client are embedded by passing the
observed response (or the remote server's state, for the happy path) as an
explicit argument.
-/

namespace Yeti

/-- The process-wide random source: a stream of pre-committed draws.
An exhausted stream keeps yielding `0`. -/
abbrev RNG := List Nat

/-- Pop one draw from the random source. -/
def drawNat (g : RNG) : Nat × RNG :=
  match g with
  | [] => (0, [])
  | n :: rest => (n, rest)

/-- Model of Python `random.randint(a, b)`: a uniform integer in `[a, b]`
(inclusive), for `a ≤ b` over naturals. -/
def pyRandint (a b : Nat) (g : RNG) : Nat × RNG :=
  let r := drawNat g
  (a + r.1 % (b - a + 1), r.2)

/-- Model of Python `random.randint(a, b)` over a possibly negative range. -/
def pyRandintI (a b : Int) (g : RNG) : Int × RNG :=
  let r := drawNat g
  (a + (r.1 % (b - a + 1).toNat : Nat), r.2)

/-- Model of Python `random.choice(population)`: picks one element.
Python raises on an empty population; the embedding returns `d` there. -/
def pyChoice (l : List α) (d : α) (g : RNG) : α × RNG :=
  let r := drawNat g
  (l.getD (r.1 % l.length) d, r.2)

/-- Model of Python `random.choices(population, k=k)`: `k` independent picks. -/
def pyChoices (pop : List Char) : Nat → RNG → List Char × RNG
  | 0, g => ([], g)
  | k + 1, g =>
    let r := drawNat g
    let c := pop.getD (r.1 % pop.length) 'a'
    let rest := pyChoices pop k r.2
    (c :: rest.1, rest.2)

/-- Resolution of the modelled `random.uniform` draw. -/
def uniformRes : Nat := 1000000

/-- Model of Python `random.uniform(a, b)`: `a + (b - a) * t` with
`t ∈ [0, 1]` a rational of resolution `uniformRes`, so the result lies in
the closed interval `[a, b]`. -/
def pyUniform (a b : ℚ) (g : RNG) : ℚ × RNG :=
  let r := drawNat g
  (a + (b - a) * ((r.1 % (uniformRes + 1) : ℕ) : ℚ) / (uniformRes : ℚ), r.2)

/-- Model of Python `round(x, 2)` on the rational embedding of floats:
round to the nearest cent.  (Python rounds exact half-cents to even; the
embedding rounds them up.  No claim distinguishes the two.) -/
def round2 (x : ℚ) : ℚ := ((round (100 * x) : ℤ) : ℚ) / 100

/-- Thread the random source through a list, as Python's list comprehensions
and `for` loops over the global `random` module do. -/
def mapRand (f : α → RNG → β × RNG) : List α → RNG → List β × RNG
  | [], g => ([], g)
  | x :: xs, g =>
    let r := f x g
    let rest := mapRand f xs r.2
    (r.1 :: rest.1, rest.2)

/-! ### Timestamps

`datetime.now(timezone.utc)` is embedded by passing the current instant as an
explicit `DateTime` argument.  `isoformat()` on an aware UTC datetime yields
`YYYY-MM-DDTHH:MM:SS[.ffffff]+00:00`; the source then does
`.replace("+00:00", "Z")`. -/

/-- A broken-down UTC instant, as held by an aware `datetime` object. -/
structure DateTime where
  year : Nat
  month : Nat
  day : Nat
  hour : Nat
  minute : Nat
  second : Nat
  micro : Nat
  deriving DecidableEq

/-- The decimal digit character for `d < 10`. -/
def natDigit (d : Nat) : Char := Char.ofNat (48 + d)

/-- Zero-padded fixed-width decimal digits, most significant first
(Python's `%04d`-style padding used by `isoformat`). -/
def padChars : Nat → Nat → List Char
  | 0, _ => []
  | k + 1, n => padChars k (n / 10) ++ [natDigit (n % 10)]

/-- The body of `isoformat()` before the UTC offset: date, time and the
fractional part, which Python omits when the microsecond field is zero. -/
def isoCharsNoTz (d : DateTime) : List Char :=
  padChars 4 d.year ++
    '-' :: (padChars 2 d.month ++
      '-' :: (padChars 2 d.day ++
        'T' :: (padChars 2 d.hour ++
          ':' :: (padChars 2 d.minute ++
            ':' :: (padChars 2 d.second ++
              (if d.micro = 0 then [] else '.' :: padChars 6 d.micro))))))

/-- Embeds `isoformat()` on an aware UTC datetime: body plus the `+00:00` offset. -/
def isoCharsAware (d : DateTime) : List Char :=
  isoCharsNoTz d ++ ['+', '0', '0', ':', '0', '0']

/-- Model of Python `str.replace("+00:00", "Z")`: replaces every occurrence
of the six-character offset with `Z`, scanning left to right. -/
def replacePlus00 : List Char → List Char
  | '+' :: '0' :: '0' :: ':' :: '0' :: '0' :: rest => 'Z' :: replacePlus00 rest
  | c :: rest => c :: replacePlus00 rest
  | [] => []

/-- The stamped timestamp string:
`datetime.isoformat().replace("+00:00", "Z")`. -/
def pyIsoUtcZ (d : DateTime) : String := String.mk (replacePlus00 (isoCharsAware d))

/-- Is `c` a decimal digit? -/
def isDigitCh (c : Char) : Bool := 48 ≤ c.toNat && c.toNat ≤ 57

/-- Consume exactly `k` decimal digits, returning the rest of the input. -/
def checkDigits : Nat → List Char → Option (List Char)
  | 0, l => some l
  | _ + 1, [] => none
  | k + 1, c :: l => if isDigitCh c then checkDigits k l else none

/-- Consume one expected character. -/
def checkChar (c : Char) : List Char → Option (List Char)
  | [] => none
  | d :: l => if d = c then some l else none

/-- Recogniser for Z-suffixed UTC ISO-8601 timestamps
`YYYY-MM-DDTHH:MM:SS[.ffffff]Z`, used to state "parseable as UTC ISO-8601". -/
def isUtcIsoZChars (l : List Char) : Bool :=
  match (do
    let l1 ← checkDigits 4 l
    let l2 ← checkChar '-' l1
    let l3 ← checkDigits 2 l2
    let l4 ← checkChar '-' l3
    let l5 ← checkDigits 2 l4
    let l6 ← checkChar 'T' l5
    let l7 ← checkDigits 2 l6
    let l8 ← checkChar ':' l7
    let l9 ← checkDigits 2 l8
    let l10 ← checkChar ':' l9
    checkDigits 2 l10 : Option (List Char)) with
  | none => false
  | some rest =>
    match rest with
    | ['Z'] => true
    | '.' :: r =>
      match checkDigits 6 r with
      | some ['Z'] => true
      | _ => false
    | _ => false

/-- String-level recogniser for Z-suffixed UTC ISO-8601 timestamps. -/
def isUtcIsoZ (s : String) : Bool := isUtcIsoZChars s.data

/-! ### Calendar arithmetic

`datetime + timedelta(days=…, hours=…, minutes=…)` is embedded through the
standard civil-calendar/day-number conversion, at minute granularity (the
offsets in the source are whole minutes, so seconds and microseconds pass
through unchanged). -/

/-- Day number of a civil date (days since 1970-01-01, Gregorian). -/
def daysFromCivil (y m d : Int) : Int :=
  let y2 := if m ≤ 2 then y - 1 else y
  let era := (if 0 ≤ y2 then y2 else y2 - 399) / 400
  let yoe := y2 - era * 400
  let mp := (m + 9) % 12
  let doy := (153 * mp + 2) / 5 + d - 1
  let doe := yoe * 365 + yoe / 4 - yoe / 100 + doy
  era * 146097 + doe - 719468

/-- Civil date (year, month, day) of a day number. -/
def civilFromDays (z0 : Int) : Int × Int × Int :=
  let z := z0 + 719468
  let era := (if 0 ≤ z then z else z - 146096) / 146097
  let doe := z - era * 146097
  let yoe := (doe - doe / 1460 + doe / 36524 - doe / 146096) / 365
  let y := yoe + era * 400
  let doy := doe - (365 * yoe + yoe / 4 - yoe / 100)
  let mp := (5 * doy + 2) / 153
  let d := doy - (153 * mp + 2) / 5 + 1
  let m := if mp < 10 then mp + 3 else mp - 9
  (if m ≤ 2 then y + 1 else y, m, d)

/-- Embeds `dt + timedelta(days=days, hours=hours, minutes=minutes)`. -/
def dtAddOffsets (dt : DateTime) (days : Int) (hours minutes : Nat) : DateTime :=
  let total := daysFromCivil dt.year dt.month dt.day * 1440 +
    (dt.hour : Int) * 60 + dt.minute + days * 1440 + (hours : Int) * 60 + minutes
  let dayCount := total.fdiv 1440
  let rem := (total - dayCount * 1440).toNat
  let c := civilFromDays dayCount
  { year := c.1.toNat, month := c.2.1.toNat, day := c.2.2.toNat,
    hour := rem / 60, minute := rem % 60, second := dt.second, micro := dt.micro }

/-! ### Field generators (`example/generate_data.py`) -/

/-- Python's `string.ascii_lowercase`. -/
def asciiLowercase : List Char := "abcdefghijklmnopqrstuvwxyz".data

/-- Python's `f"{n:03d}"`: decimal, zero-padded to at least three digits. -/
def pad3Str (n : Nat) : String :=
  if n < 10 then "00" ++ toString n
  else if n < 100 then "0" ++ toString n
  else toString n

/-- Python's `str.title()`: uppercase a letter that starts a word, lowercase
the rest, leave non-letters alone. -/
def pyTitleGo : Bool → List Char → List Char
  | _, [] => []
  | prev, c :: cs =>
    let c2 := if c.isAlpha then (if prev then c.toLower else c.toUpper) else c
    c2 :: pyTitleGo c.isAlpha cs

/-- Python's `str.title()` on a character list. -/
def pyTitle (l : List Char) : List Char := pyTitleGo false l

/-- Python's `str.strip()` for spaces. -/
def pyStrip (l : List Char) : List Char :=
  ((l.dropWhile (· = ' ')).reverse.dropWhile (· = ' ')).reverse

/-- Embeds `generate_user_id`. -/
def generate_user_id (g : RNG) : String × RNG :=
  let r := pyRandint 1 9999 g
  ("user-" ++ toString r.1, r.2)

/-- Embeds `generate_product_id`. -/
def generate_product_id (g : RNG) : String × RNG :=
  let k := pyRandint 3 6 g
  let letters := pyChoices asciiLowercase k.1 k.2
  ("product-" ++ String.mk letters.1, letters.2)

/-- Embeds `generate_order_id`. -/
def generate_order_id (g : RNG) : String × RNG :=
  let r := pyRandint 1 9999 g
  ("order-" ++ pad3Str r.1, r.2)

/-- Embeds `generate_message_id`. -/
def generate_message_id (g : RNG) : String × RNG :=
  let r := pyRandint 1 9999 g
  ("payment-order-" ++ pad3Str r.1, r.2)

/-- Embeds `generate_amount`: `round(random.uniform(10.0, 10000.0), 2)`. -/
def generate_amount (g : RNG) : ℚ × RNG :=
  let u := pyUniform 10 10000 g
  (round2 u.1, u.2)

/-- Embeds `generate_status`. -/
def generate_status (g : RNG) : String × RNG :=
  pyChoice ["completed", "active", "pending", "inactive", "processing"]
    "completed" g

/-- Embeds `generate_currency`. -/
def generate_currency : String := "USD"

/-- Embeds `generate_created_at`: the current instant plus random day/hour/minute
offsets, stamped as a Z-suffixed ISO string.  The current instant
(`datetime.now(timezone.utc)`) is an explicit argument. -/
def generate_created_at (now : DateTime) (g : RNG) : String × RNG :=
  let d := pyRandintI (-90) 90 g
  let h := pyRandint 0 23 d.2
  let mi := pyRandint 0 59 h.2
  (pyIsoUtcZ (dtAddOffsets now d.1 h.1 mi.1), mi.2)

/-! ### Event envelopes and the dataset generator -/

/-- A JSON scalar appearing in a generated payload: a string or a number. -/
inductive PVal where
  | s (v : String)
  | q (v : ℚ)
  deriving DecidableEq

/-- Python `str()`/f-string interpolation of a payload scalar. -/
def pvalStr : PVal → String
  | .s v => v
  | .q v => toString v

/-- An event envelope as built by `generate_payment_message`: the payload is
a JSON object embedded as an association list in insertion order. -/
structure Msg where
  id : String
  source : String
  payload : List (String × PVal)
  deriving DecidableEq

/-- Embeds `generate_payment_message`.  Draw order follows the source: the
`product_id` coin flip first, then the payload fields in dict order, then
(only when the flip chose inclusion) the product id, then the message id. -/
def generate_payment_message (now : DateTime) (g : RNG) : Msg × RNG :=
  let hp := pyChoice [true, false] true g
  let oid := generate_order_id hp.2
  let uid := generate_user_id oid.2
  let amt := generate_amount uid.2
  let st := generate_status amt.2
  let ca := generate_created_at now st.2
  let payload0 : List (String × PVal) :=
    [("order_id", .s oid.1), ("user_id", .s uid.1), ("amount", .q amt.1),
     ("currency", .s generate_currency), ("status", .s st.1),
     ("created_at", .s ca.1)]
  let pr : List (String × PVal) × RNG :=
    if hp.1 then
      let pid := generate_product_id ca.2
      (payload0 ++ [("product_id", .s pid.1)], pid.2)
    else (payload0, ca.2)
  let mid := generate_message_id pr.2
  ({ id := mid.1, source := "payment-service", payload := pr.1 }, mid.2)

/-- Embeds `generate_messages(count)`: `count` envelopes in generation order. -/
def generate_messages (now : DateTime) : Nat → RNG → List Msg × RNG
  | 0, g => ([], g)
  | n + 1, g =>
    let m := generate_payment_message now g
    let rest := generate_messages now n m.2
    (m.1 :: rest.1, rest.2)

/-- A MongoDB user-profile record (`generate_user_data`). -/
structure UserRecord where
  _id : PVal
  name : String
  email : String
  tier : String
  deriving DecidableEq

/-- Embeds `generate_user_data(user_id)`. -/
def generate_user_data (uid : PVal) (g : RNG) : UserRecord × RNG :=
  let nlen := pyRandint 5 20 g
  let nm := pyChoices (asciiLowercase ++ [' ']) nlen.1 nlen.2
  let elen := pyRandint 5 10 nm.2
  let ep := pyChoices asciiLowercase elen.1 elen.2
  let tier := pyChoice ["basic", "premium", "enterprise"] "basic" ep.2
  ({ _id := uid, name := String.mk (pyStrip (pyTitle nm.1)),
     email := String.mk ep.1 ++ "@example.com", tier := tier.1 }, tier.2)

/-- A MongoDB product record (`generate_product_data`). -/
structure ProductRecord where
  _id : PVal
  name : String
  price : ℚ
  category : String
  deriving DecidableEq

/-- Embeds `generate_product_data(product_id)`. -/
def generate_product_data (pid : PVal) (g : RNG) : ProductRecord × RNG :=
  let nlen := pyRandint 5 30 g
  let nm := pyChoices (asciiLowercase ++ [' ']) nlen.1 nlen.2
  let pu := pyUniform 10 1000 nm.2
  let cat := pyChoice ["electronics", "clothing", "food", "books", "general"]
    "electronics" pu.2
  ({ _id := pid, name := String.mk (pyStrip (pyTitle nm.1)),
     price := round2 pu.1, category := cat.1 }, cat.2)

/-- A Redis order-extension record (`generate_order_data`). -/
structure OrderRecord where
  discount_tier : Option String
  shipping_method : Option String
  shipping_cost : Option ℚ
  estimated_delivery_days : Nat
  deriving DecidableEq

/-- Embeds `generate_order_data(order_id)`.  The id is unused by the source, and the
shipping-cost draw happens only when the method is `express`, exactly as the
conditional expression in the source evaluates. -/
def generate_order_data (_order_id : PVal) (g : RNG) : OrderRecord × RNG :=
  let dt := pyChoice [none, some "standard", some "gold", some "premium"] none g
  let sm := pyChoice [none, some "standard", some "express", some "premium"]
    none dt.2
  let sc : Option ℚ × RNG :=
    if sm.1 = some "express" then
      let u := pyUniform 0 50 sm.2
      (some (round2 u.1), u.2)
    else (none, sm.2)
  let ed := pyRandint 1 14 sc.2
  ({ discount_tier := dt.1, shipping_method := sm.1, shipping_cost := sc.1,
     estimated_delivery_days := ed.1 }, ed.2)

/-- Python `set.add`: insert if absent. -/
def addSet [DecidableEq α] (s : List α) (x : α) : List α :=
  if x ∈ s then s else s ++ [x]

/-- The `{"users": …, "products": …}` bundle built by
`generate_mongodb_data`. -/
structure MongoData where
  users : List UserRecord
  products : List ProductRecord
  deriving DecidableEq

/-- The id-collection loop of `generate_mongodb_data`: one pass over the
messages, adding `payload["user_id"]` and `payload["product_id"]` to their
sets when present. -/
def collectRefIds (msgs : List Msg) : List PVal × List PVal :=
  msgs.foldl (fun acc m =>
    let acc1 :=
      match m.payload.lookup "user_id" with
      | some v => (addSet acc.1 v, acc.2)
      | none => acc
    match m.payload.lookup "product_id" with
    | some v => (acc1.1, addSet acc1.2 v)
    | none => acc1) ([], [])

/-- Embeds `generate_mongodb_data(messages)`: one profile record per collected
user id, one product record per collected product id. -/
def generate_mongodb_data (msgs : List Msg) (g : RNG) : MongoData × RNG :=
  let ids := collectRefIds msgs
  let us := mapRand generate_user_data ids.1 g
  let ps := mapRand generate_product_data ids.2 us.2
  ({ users := us.1, products := ps.1 }, ps.2)

/-- The id-collection loop of `generate_redis_order_data`. -/
def collectOrderIds (msgs : List Msg) : List PVal :=
  msgs.foldl (fun acc m =>
    match m.payload.lookup "order_id" with
    | some v => addSet acc v
    | none => acc) []

/-- Embeds `generate_redis_order_data(messages)`: a dict keyed by
`f"order:{order_id}"` with one order-extension record per collected id. -/
def generate_redis_order_data (msgs : List Msg) (g : RNG) :
    List (String × OrderRecord) × RNG :=
  mapRand (fun oid g2 =>
    let od := generate_order_data oid g2
    (("order:" ++ pvalStr oid, od.1), od.2)) (collectOrderIds msgs) g

/-! ### JSON values for envelopes, request payloads and response bodies -/

/-- A JSON value, used for published envelopes, enrichment-rule configs and
HTTP response bodies. -/
inductive EVal where
  | s (v : String)
  | q (v : ℚ)
  | b (v : Bool)
  | obj (fields : List (String × EVal))
  | arr (items : List EVal)
  | nullv

/-- Python `d.get(k)` / `d[k]` on a JSON value: a field of an object,
`None`-like otherwise. -/
def evalObjGet (k : String) (v : EVal) : Option EVal :=
  match v with
  | .obj fields => fields.lookup k
  | _ => none

/-! ### Rule-provisioning client (`example/producer.py`, `RuleManager`)

The filtering and enrichment endpoints are structurally identical, so the
client is embedded once, parametrised by the rule-spec type, and
instantiated for each endpoint with the payload the source builds.

Two facets of the same source functions are embedded:
  * a server-state level (`Server σ`), for the delete-then-create upsert
    semantics: the remote keeps a rule list and assigns fresh increasing
    ids on create;
  * an HTTP-response level (`Resp`), for the status/logging behaviour of a
    single request. -/

/-- A rule resource as listed by the server.  `name` is `Option` because
`rule.get("name")` in the source tolerates rules without a name field. -/
structure Rule (σ : Type) where
  id : Nat
  name : Option String
  spec : σ
  deriving DecidableEq

/-- The decoded JSON body of a 2xx list response: either a JSON list of
rules, or any non-list JSON value (an object, `null`, a number, …). -/
inductive RespBody (σ : Type) where
  | jlist (rules : List (Rule σ))
  | jother

/-- Outcome of a `GET …/rules/…` as observed by the client: a raised
`requests.RequestException` (transport error, non-2xx via
`raise_for_status`, or an unparseable body) or a decoded 2xx body. -/
inductive GetListResult (σ : Type) where
  | exn
  | ok (body : RespBody σ)

/-- Shared body of `list_filtering_rules` / `list_enrichment_rules`:
`return result if isinstance(result, list) else []`, with every
`RequestException` swallowed into `[]`. -/
def rulesFromListResponse : GetListResult σ → List (Rule σ)
  | .exn => []
  | .ok (.jlist rs) => rs
  | .ok .jother => []

/-- The spec of a filtering rule (`POST` payload minus the name). -/
structure FSpec where
  expression : String
  priority : Int
  enabled : Bool
  deriving DecidableEq

/-- The spec of an enrichment rule (`POST` payload minus the name). -/
structure ESpec where
  field_to_enrich : String
  source_type : String
  source_config : EVal
  transformations : EVal
  cache_ttl_seconds : Int
  error_handling : String
  priority : Int
  enabled : Bool

/-- Embeds `RuleManager.list_filtering_rules`. -/
def list_filtering_rules (r : GetListResult FSpec) : List (Rule FSpec) :=
  rulesFromListResponse r

/-- Embeds `RuleManager.list_enrichment_rules`. -/
def list_enrichment_rules (r : GetListResult ESpec) : List (Rule ESpec) :=
  rulesFromListResponse r

/-- Shared body of `get_filtering_rule_by_name` /
`get_enrichment_rule_by_name`: early `None` on an empty list, then a
first-match scan comparing `rule.get("name")` with the argument. -/
def getRuleByName (r : GetListResult σ) (name : String) : Option (Rule σ) :=
  let rules := rulesFromListResponse r
  if rules.isEmpty then none
  else rules.find? (fun rule => rule.name == some name)

/-- Embeds `RuleManager.get_filtering_rule_by_name`. -/
def get_filtering_rule_by_name (r : GetListResult FSpec) (name : String) :
    Option (Rule FSpec) :=
  getRuleByName r name

/-- Embeds `RuleManager.get_enrichment_rule_by_name`. -/
def get_enrichment_rule_by_name (r : GetListResult ESpec) (name : String) :
    Option (Rule ESpec) :=
  getRuleByName r name

/-- The remote rule store: the listed rules plus the server's fresh-id
counter. -/
structure Server (σ : Type) where
  rules : List (Rule σ)
  nextId : Nat

/-- The list response a reachable server gives for its current state. -/
def serverListResponse (s : Server σ) : GetListResult σ :=
  .ok (.jlist s.rules)

/-- Server effect of `DELETE …/rules/…/{rule_id}`. -/
def deleteRuleById (i : Nat) (s : Server σ) : Server σ :=
  { s with rules := s.rules.filter (fun r => r.id != i) }

/-- Server effect of `POST …/rules/…`: append a fresh rule, return its
server-assigned id. -/
def postCreateRule (name : String) (sp : σ) (s : Server σ) : Server σ × Nat :=
  ({ rules := s.rules ++ [{ id := s.nextId, name := some name, spec := sp }],
     nextId := s.nextId + 1 }, s.nextId)

/-- Shared body of `create_filtering_rule` / `create_enrichment_rule`:
look up by name through the observed list response `view`, delete the found
rule's id if any, then create. -/
def createRuleUpsert (view : GetListResult σ) (name : String) (sp : σ)
    (s : Server σ) : Server σ × Nat :=
  match getRuleByName view name with
  | some r => postCreateRule name sp (deleteRuleById r.id s)
  | none => postCreateRule name sp s

/-- The rules on a server carrying a given name. -/
def rulesNamed (name : String) (l : List (Rule σ)) : List (Rule σ) :=
  l.filter (fun r => r.name == some name)

/-- Embeds `RuleManager.delete_filtering_rule` (server effect). -/
def delete_filtering_rule (ruleId : Nat) (s : Server FSpec) : Server FSpec :=
  deleteRuleById ruleId s

/-- Embeds `RuleManager.create_filtering_rule(name, expression, priority)`:
the posted payload fixes `enabled = True`. -/
def create_filtering_rule (view : GetListResult FSpec)
    (name expression : String) (priority : Int) (s : Server FSpec) :
    Server FSpec × Nat :=
  createRuleUpsert view name
    { expression := expression, priority := priority, enabled := true } s

/-- The `rule` dict passed to `create_enrichment_rule`: required keys as
plain fields, `.get`-defaulted keys as `Option`. -/
structure EInput where
  name : String
  field_to_enrich : String
  source_type : String
  source_config : EVal
  transformations : Option EVal
  cache_ttl_seconds : Option Int
  error_handling : Option String
  priority : Option Int
  enabled : Option Bool

/-- The payload `create_enrichment_rule` builds from its input dict,
applying the source's `.get` defaults. -/
def especOfInput (r : EInput) : ESpec :=
  { field_to_enrich := r.field_to_enrich, source_type := r.source_type,
    source_config := r.source_config,
    transformations := r.transformations.getD (.arr []),
    cache_ttl_seconds := r.cache_ttl_seconds.getD 0,
    error_handling := r.error_handling.getD "skip_rule",
    priority := r.priority.getD 10,
    enabled := r.enabled.getD true }

/-- Embeds `RuleManager.delete_enrichment_rule` (server effect). -/
def delete_enrichment_rule (ruleId : Nat) (s : Server ESpec) : Server ESpec :=
  deleteRuleById ruleId s

/-- Embeds `RuleManager.create_enrichment_rule(rule)`. -/
def create_enrichment_rule (view : GetListResult ESpec) (rule : EInput)
    (s : Server ESpec) : Server ESpec × Nat :=
  createRuleUpsert view rule.name (especOfInput rule) s

/-! ### HTTP-response level: statuses and logging -/

/-- An HTTP response as observed by the client: its status code, its body
parsed as JSON (`none` when parsing raises), and its raw text. -/
structure Resp where
  status : Nat
  jsonBody : Option EVal
  text : String

/-- Embeds `requests.Response.raise_for_status()`: raises `HTTPError` carrying the
remote status exactly for 4xx and 5xx responses. -/
def raise_for_status (r : Resp) : Except Nat Unit :=
  if 400 ≤ r.status ∧ r.status < 600 then .error r.status else .ok ()

/-- One diagnostic line printed by the client. -/
inductive LogLine where
  | errorCreating (name : String) (status : Nat)
  | errorResponse (detail : EVal)
  | validationMessage (m : EVal)
  | errorMessage (m : EVal)
  | responseText (t : String)
  | failedParseJson
  | payloadSent (p : EVal)

/-- Embeds `delete_filtering_rule` on one observed response: raise-for-status,
no diagnostics. -/
def delete_filtering_rule_http (r : Resp) : Except Nat Unit × List LogLine :=
  (raise_for_status r, [])

/-- Embeds `update_filtering_rule` on one observed response. -/
def update_filtering_rule_http (r : Resp) : Except Nat Unit × List LogLine :=
  (raise_for_status r, [])

/-- Embeds `delete_enrichment_rule` on one observed response. -/
def delete_enrichment_rule_http (r : Resp) : Except Nat Unit × List LogLine :=
  (raise_for_status r, [])

/-- The `POST` step of `create_filtering_rule` on one observed response:
plain raise-for-status, then `response.json()["id"]`; nothing is logged on
any path. -/
def create_filtering_rule_http (r : Resp) :
    Except Nat (Option EVal) × List LogLine :=
  match raise_for_status r with
  | .error st => (.error st, [])
  | .ok _ => (.ok (r.jsonBody.bind (evalObjGet "id")), [])

/-- The `POST` step of `create_enrichment_rule` on one observed response:
on a non-ok response (`response.ok` is `status < 400`) print the status,
the parsed error body (or the raw text when parsing raises), any nested
validation/error messages, and the payload sent — then raise-for-status. -/
def create_enrichment_rule_http (name : String) (payload : EVal) (r : Resp) :
    Except Nat (Option EVal) × List LogLine :=
  if r.status < 400 then (.ok (r.jsonBody.bind (evalObjGet "id")), [])
  else
    let detailLogs :=
      match r.jsonBody with
      | some detail =>
        [LogLine.errorResponse detail] ++
          (match evalObjGet "details" detail with
           | some (.obj dfields) =>
             match dfields.lookup "message" with
             | some m => [LogLine.validationMessage m]
             | none => []
           | _ => []) ++
          (match evalObjGet "message" detail with
           | some m => [LogLine.errorMessage m]
           | none => [])
      | none => [LogLine.responseText r.text, LogLine.failedParseJson]
    let logs := LogLine.errorCreating name r.status ::
      detailLogs ++ [LogLine.payloadSent payload]
    (match raise_for_status r with
     | .error st => .error st
     | .ok _ => .ok (r.jsonBody.bind (evalObjGet "id")), logs)

/-! ### Event publisher (`MessageProducer.send_envelope`) -/

/-- A message handed to the broker: topic, key and JSON value. -/
structure SentRecord where
  topic : String
  key : EVal
  value : List (String × EVal)

/-- Embeds `MessageProducer.send_envelope(envelope)`: stamp `timestamp` (current
UTC, passed explicitly) and `metadata` when absent, then send keyed by
`envelope["id"]` and flush.  An envelope without an `id` key makes the
source raise `KeyError`, embedded as `none`. -/
def send_envelope (now : DateTime) (topic : String)
    (env : List (String × EVal)) : Option SentRecord :=
  let env1 :=
    if (env.lookup "timestamp").isSome then env
    else env ++ [("timestamp", EVal.s (pyIsoUtcZ now))]
  let env2 :=
    if (env1.lookup "metadata").isSome then env1
    else env1 ++ [("metadata", EVal.obj [])]
  match env2.lookup "id" with
  | some k => some { topic := topic, key := k, value := env2 }
  | none => none

/-! ### Reference-data loaders (`load_mongodb.py`, `load_redis.py`)

The store clients are external collaborators; a loader's observable
behaviour is embedded as the lines it prints, the writes it issues, and
whether an exception escapes.  The dataset file is an `Option` (absent or
parsed content); a store failure is a Boolean fault flag. -/

/-- One write issued to a reference store. -/
inductive StoreWrite where
  | mongoUpsertUser (u : UserRecord)
  | mongoUpsertProduct (p : ProductRecord)
  | redisSet (key : String) (value : EVal)

/-- One user-facing line printed by a loader. -/
inductive LoadLog where
  | fileNotFound (filename : String)
  | runGenerateFirst
  | loadingInto (target : String)
  | loadedUsers (n : Nat)
  | loadedProducts (n : Nat)
  | loadSucceeded
  | errorLoading
  | ensureStoreRunning
  | authHint
  | loadedKeys (n : Nat)

/-- Observable outcome of one loader run. -/
structure LoadOutcome where
  log : List LoadLog
  writes : List StoreWrite
  raised : Bool

/-- Embeds `load_mongodb_data`: early return with an instruction when the dataset
file is absent; otherwise upsert-by-`_id` per record, with any store
exception swallowed into diagnostics (the source wraps the store work in
`try/except`). -/
def load_mongodb_data (file : Option MongoData) (dbError : Bool) :
    LoadOutcome :=
  match file with
  | none =>
    { log := [.fileNotFound "mongodb_data.json", .runGenerateFirst],
      writes := [], raised := false }
  | some data =>
    if dbError then
      { log := [.loadingInto "mongodb", .errorLoading, .ensureStoreRunning,
          .authHint],
        writes := [], raised := false }
    else
      { log := [.loadingInto "mongodb"] ++
          (if data.users.isEmpty then []
           else [.loadedUsers data.users.length]) ++
          (if data.products.isEmpty then []
           else [.loadedProducts data.products.length]) ++ [.loadSucceeded],
        writes :=
          (if data.users.isEmpty then []
           else data.users.map .mongoUpsertUser) ++
          (if data.products.isEmpty then []
           else data.products.map .mongoUpsertProduct),
        raised := false }

/-- Embeds `load_redis_data`: early return with an instruction when the dataset
file is absent; otherwise one `SET` per key.  The source has no
`try/except` here, so a store failure propagates. -/
def load_redis_data (file : Option (List (String × EVal)))
    (redisError : Bool) : LoadOutcome :=
  match file with
  | none =>
    { log := [.fileNotFound "redis_data.json", .runGenerateFirst],
      writes := [], raised := false }
  | some data =>
    if redisError then
      { log := [.loadingInto "redis"], writes := [], raised := true }
    else
      { log := [.loadingInto "redis", .loadedKeys data.length,
          .loadSucceeded],
        writes := data.map (fun kv => .redisSet kv.1 kv.2),
        raised := false }

/-! ### Concrete states used by witnesses and counterexamples -/

/-- A server state that already violates the at-most-one-rule-per-name
invariant: two filtering rules named `"n"`. -/
def c2DupServer : Server FSpec :=
  { rules :=
      [{ id := 0, name := some "n",
         spec := { expression := "e0", priority := 1, enabled := true } },
       { id := 1, name := some "n",
         spec := { expression := "e1", priority := 1, enabled := true } }],
    nextId := 2 }

/-- First provisioning call against `c2DupServer`. -/
def c2DupRun1 : Server FSpec × Nat :=
  create_filtering_rule (serverListResponse c2DupServer) "n" "a" 1 c2DupServer

/-- Second provisioning call, against the state the first one left. -/
def c2DupRun2 : Server FSpec × Nat :=
  create_filtering_rule (serverListResponse c2DupRun1.1) "n" "b" 2 c2DupRun1.1

/-- The empty server state. -/
def c2EmptyServer : Server FSpec := { rules := [], nextId := 0 }

/-- First provisioning call against the empty server. -/
def c2Run1 : Server FSpec × Nat :=
  create_filtering_rule (serverListResponse c2EmptyServer) "n" "a" 1
    c2EmptyServer

/-- Second provisioning call, against the state the first one left. -/
def c2Run2 : Server FSpec × Nat :=
  create_filtering_rule (serverListResponse c2Run1.1) "n" "b" 2 c2Run1.1

/-- A server state holding one filtering rule named `"n"`. -/
def c4OneRuleServer : Server FSpec :=
  { rules :=
      [{ id := 0, name := some "n",
         spec := { expression := "e0", priority := 1, enabled := true } }],
    nextId := 1 }

/-- A listed rule set: one rule without a name field, then two rules
sharing the name `"a"`. -/
def c10DemoRules : List (Rule FSpec) :=
  [{ id := 0, name := none,
     spec := { expression := "x", priority := 1, enabled := true } },
   { id := 1, name := some "a",
     spec := { expression := "y", priority := 2, enabled := true } },
   { id := 2, name := some "a",
     spec := { expression := "z", priority := 3, enabled := true } }]

/-- A concrete 422 response with a parseable JSON error body. -/
def c5Resp422 : Resp :=
  { status := 422, jsonBody := some (EVal.obj [("message", EVal.s "bad")]),
    text := "err" }

/-! ### Association-list lookup lemmas -/

theorem lookup_append_none [BEq α] {k : α} {l1 l2 : List (α × β)}
    (h : l1.lookup k = none) : (l1 ++ l2).lookup k = l2.lookup k := by
  induction l1 with
  | nil => rfl
  | cons p rest ih =>
    obtain ⟨a, b⟩ := p
    cases hak : k == a with
    | true => simp [List.lookup, hak] at h
    | false =>
      simp only [List.lookup, hak] at h
      rw [List.cons_append]
      simp only [List.lookup, hak]
      exact ih h

theorem lookup_append_some [BEq α] {k : α} {v : β} {l1 l2 : List (α × β)}
    (h : l1.lookup k = some v) : (l1 ++ l2).lookup k = some v := by
  induction l1 with
  | nil => simp [List.lookup] at h
  | cons p rest ih =>
    obtain ⟨a, b⟩ := p
    cases hak : k == a with
    | true =>
      simp only [List.lookup, hak] at h
      rw [List.cons_append]
      simp only [List.lookup, hak]
      exact h
    | false =>
      simp only [List.lookup, hak] at h
      rw [List.cons_append]
      simp only [List.lookup, hak]
      exact ih h

/-! ### Set-collection lemmas -/

theorem mem_addSet [DecidableEq α] {s : List α} {x y : α} :
    y ∈ addSet s x ↔ y ∈ s ∨ y = x := by
  unfold addSet
  by_cases h : x ∈ s
  · rw [if_pos h]
    constructor
    · exact Or.inl
    · rintro (hy | rfl)
      exacts [hy, h]
  · rw [if_neg h]
    simp

theorem nodup_addSet [DecidableEq α] {s : List α} (hs : s.Nodup) (x : α) :
    (addSet s x).Nodup := by
  unfold addSet
  by_cases h : x ∈ s
  · rw [if_pos h]; exact hs
  · rw [if_neg h]
    rw [List.nodup_append]
    refine ⟨hs, List.nodup_singleton x, ?_⟩
    intro a ha hax
    rw [List.mem_singleton] at hax
    subst hax
    exact h ha

theorem mem_foldl_idStep (key : String) (msgs : List Msg) (acc : List PVal)
    (x : PVal) :
    (x ∈ msgs.foldl (fun a m =>
      match m.payload.lookup key with
      | some v => addSet a v
      | none => a) acc) ↔
      x ∈ acc ∨ ∃ m ∈ msgs, m.payload.lookup key = some x := by
  induction msgs generalizing acc with
  | nil => simp
  | cons m rest ih =>
    rw [List.foldl_cons]
    cases hl : m.payload.lookup key with
    | none =>
      simp only [hl]
      rw [ih]
      simp only [List.mem_cons]
      constructor
      · rintro (ha | ⟨m', hm', hm'l⟩)
        · exact Or.inl ha
        · exact Or.inr ⟨m', Or.inr hm', hm'l⟩
      · rintro (ha | ⟨m', hm' | hm', hm'l⟩)
        · exact Or.inl ha
        · subst hm'; rw [hl] at hm'l; cases hm'l
        · exact Or.inr ⟨m', hm', hm'l⟩
    | some v =>
      simp only [hl]
      rw [ih]
      simp only [mem_addSet, List.mem_cons]
      constructor
      · rintro ((ha | rfl) | ⟨m', hm', hm'l⟩)
        · exact Or.inl ha
        · exact Or.inr ⟨m, Or.inl rfl, hl⟩
        · exact Or.inr ⟨m', Or.inr hm', hm'l⟩
      · rintro (ha | ⟨m', hm' | hm', hm'l⟩)
        · exact Or.inl (Or.inl ha)
        · subst hm'; rw [hl] at hm'l
          injection hm'l with hv
          exact Or.inl (Or.inr hv.symm)
        · exact Or.inr ⟨m', hm', hm'l⟩

theorem nodup_foldl_idStep (key : String) (msgs : List Msg)
    (acc : List PVal) (ha : acc.Nodup) :
    (msgs.foldl (fun a m =>
      match m.payload.lookup key with
      | some v => addSet a v
      | none => a) acc).Nodup := by
  induction msgs generalizing acc with
  | nil => exact ha
  | cons m rest ih =>
    rw [List.foldl_cons]
    cases hl : m.payload.lookup key with
    | none => simp only [hl]; exact ih _ ha
    | some v => simp only [hl]; exact ih _ (nodup_addSet ha v)

theorem collectRefIds_eq (msgs : List Msg) :
    collectRefIds msgs =
      (msgs.foldl (fun a m =>
        match m.payload.lookup "user_id" with
        | some v => addSet a v
        | none => a) [],
       msgs.foldl (fun a m =>
        match m.payload.lookup "product_id" with
        | some v => addSet a v
        | none => a) []) := by
  unfold collectRefIds
  suffices h : ∀ accU accP : List PVal,
      msgs.foldl (fun acc m =>
        let acc1 :=
          match m.payload.lookup "user_id" with
          | some v => (addSet acc.1 v, acc.2)
          | none => acc
        match m.payload.lookup "product_id" with
        | some v => (acc1.1, addSet acc1.2 v)
        | none => acc1) (accU, accP) =
      (msgs.foldl (fun a m =>
        match m.payload.lookup "user_id" with
        | some v => addSet a v
        | none => a) accU,
       msgs.foldl (fun a m =>
        match m.payload.lookup "product_id" with
        | some v => addSet a v
        | none => a) accP) by
    exact h [] []
  induction msgs with
  | nil => intro accU accP; rfl
  | cons m rest ih =>
    intro accU accP
    rw [List.foldl_cons, List.foldl_cons, List.foldl_cons]
    cases hu : m.payload.lookup "user_id" <;>
      cases hp : m.payload.lookup "product_id" <;>
      simp only [hu, hp] <;> exact ih _ _

theorem collectOrderIds_eq (msgs : List Msg) :
    collectOrderIds msgs =
      msgs.foldl (fun a m =>
        match m.payload.lookup "order_id" with
        | some v => addSet a v
        | none => a) [] := rfl

/-! ### `mapRand` lemmas -/

theorem mapRand_users_ids (ids : List PVal) (g : RNG) :
    (mapRand generate_user_data ids g).1.map (fun u => u._id) = ids := by
  induction ids generalizing g with
  | nil => rfl
  | cons x xs ih =>
    have hid : (generate_user_data x g).1._id = x := rfl
    simp [mapRand, hid, ih]

theorem mapRand_products_ids (ids : List PVal) (g : RNG) :
    (mapRand generate_product_data ids g).1.map (fun p => p._id) = ids := by
  induction ids generalizing g with
  | nil => rfl
  | cons x xs ih =>
    have hid : (generate_product_data x g).1._id = x := rfl
    simp [mapRand, hid, ih]

theorem mapRand_order_keys (ids : List PVal) (g : RNG) :
    (mapRand (fun oid g2 =>
      let od := generate_order_data oid g2
      (("order:" ++ pvalStr oid, od.1), od.2)) ids g).1.map
        (fun kv => kv.1) =
      ids.map (fun oid => "order:" ++ pvalStr oid) := by
  induction ids generalizing g with
  | nil => rfl
  | cons x xs ih => simp [mapRand, ih]

theorem mapRand_length (f : α → RNG → β × RNG) (l : List α) (g : RNG) :
    (mapRand f l g).1.length = l.length := by
  induction l generalizing g with
  | nil => rfl
  | cons x xs ih => simp [mapRand, ih]

/-! ### Rounding lemmas -/

theorem round2_round2 (x : ℚ) : round2 (round2 x) = round2 x := by
  unfold round2
  have h : (100 : ℚ) * (((round (100 * x) : ℤ) : ℚ) / 100) =
      ((round (100 * x) : ℤ) : ℚ) := by
    field_simp
  rw [h, round_intCast]

theorem round2_mono {x y : ℚ} (h : x ≤ y) : round2 x ≤ round2 y := by
  unfold round2
  have hr : round (100 * x) ≤ round (100 * y) := by
    rw [round_eq, round_eq]
    exact Int.floor_le_floor (by linarith)
  have hr2 : ((round (100 * x) : ℤ) : ℚ) ≤ ((round (100 * y) : ℤ) : ℚ) := by
    exact_mod_cast hr
  linarith

theorem round2_ten : round2 10 = 10 := by
  unfold round2
  norm_num

theorem round2_tenThousand : round2 10000 = 10000 := by
  unfold round2
  norm_num

theorem pyUniform_bounds {a b : ℚ} (hab : a ≤ b) (g : RNG) :
    a ≤ (pyUniform a b g).1 ∧ (pyUniform a b g).1 ≤ b := by
  unfold pyUniform
  set n := (drawNat g).1 with hn
  have hk : (n % (uniformRes + 1) : ℕ) ≤ uniformRes := by
    have hlt := Nat.mod_lt n (show 0 < uniformRes + 1 by omega)
    omega
  have hkq : ((n % (uniformRes + 1) : ℕ) : ℚ) ≤ (uniformRes : ℚ) := by
    exact_mod_cast hk
  have hkq0 : (0 : ℚ) ≤ ((n % (uniformRes + 1) : ℕ) : ℚ) := by positivity
  have hba : (0 : ℚ) ≤ b - a := by linarith
  have hres : (0 : ℚ) < (uniformRes : ℚ) := by norm_num [uniformRes]
  constructor
  · have h1 : 0 ≤ (b - a) * ((n % (uniformRes + 1) : ℕ) : ℚ) /
        (uniformRes : ℚ) :=
      div_nonneg (mul_nonneg hba hkq0) (le_of_lt hres)
    linarith
  · have h2 : (b - a) * ((n % (uniformRes + 1) : ℕ) : ℚ) ≤
        (b - a) * (uniformRes : ℚ) :=
      mul_le_mul_of_nonneg_left hkq hba
    have h3 : (b - a) * ((n % (uniformRes + 1) : ℕ) : ℚ) /
        (uniformRes : ℚ) ≤ b - a := by
      rw [div_le_iff₀ hres]
      linarith
    linarith

/-! ### Rule-server lemmas -/

theorem getRuleByName_eq_find? (r : GetListResult σ) (name : String) :
    getRuleByName r name =
      (rulesFromListResponse r).find? (fun rule => rule.name == some name) := by
  unfold getRuleByName
  cases hrs : rulesFromListResponse r
  · rfl
  · rfl

theorem eq_singleton_of_length_le_one {l : List α} {a : α}
    (h1 : l.length ≤ 1) (h2 : a ∈ l) : l = [a] := by
  cases l with
  | nil => cases h2
  | cons x xs =>
    cases xs with
    | nil => rw [List.mem_singleton] at h2; subst h2; rfl
    | cons y ys => simp at h1

theorem createRuleUpsert_served (s : Server σ) (name : String) (sp : σ)
    (h : (rulesNamed name s.rules).length ≤ 1) :
    rulesNamed name (createRuleUpsert (serverListResponse s) name sp s).1.rules
      = [{ id := s.nextId, name := some name, spec := sp }] ∧
    (createRuleUpsert (serverListResponse s) name sp s).2 = s.nextId ∧
    (createRuleUpsert (serverListResponse s) name sp s).1.nextId =
      s.nextId + 1 := by
  have hup : createRuleUpsert (serverListResponse s) name sp s =
      match s.rules.find? (fun rule => rule.name == some name) with
      | some r => postCreateRule name sp (deleteRuleById r.id s)
      | none => postCreateRule name sp s := by
    unfold createRuleUpsert
    rw [getRuleByName_eq_find?]
    rfl
  rw [hup]
  cases hf : s.rules.find? (fun rule => rule.name == some name) with
  | none =>
    refine ⟨?_, rfl, rfl⟩
    have hnil : s.rules.filter (fun r => r.name == some name) = [] := by
      rw [List.filter_eq_nil_iff]
      exact fun a ha => List.find?_eq_none.mp hf a ha
    show (s.rules ++
        [({ id := s.nextId, name := some name, spec := sp } : Rule σ)]).filter
        (fun r => r.name == some name) = _
    rw [List.filter_append, hnil]
    simp
  | some r =>
    have hpr := List.find?_some hf
    have hmem : r ∈ s.rules := List.mem_of_find?_eq_some hf
    have hfil : s.rules.filter (fun rule => rule.name == some name) = [r] :=
      eq_singleton_of_length_le_one h (List.mem_filter.mpr ⟨hmem, hpr⟩)
    refine ⟨?_, rfl, rfl⟩
    show ((s.rules.filter (fun x => x.id != r.id)) ++
        [({ id := s.nextId, name := some name, spec := sp } : Rule σ)]).filter
        (fun x => x.name == some name) = _
    rw [List.filter_append]
    have hcomm : (s.rules.filter (fun x => x.id != r.id)).filter
        (fun x => x.name == some name) =
        (s.rules.filter (fun x => x.name == some name)).filter
        (fun x => x.id != r.id) := by
      rw [List.filter_filter, List.filter_filter]
      apply List.filter_congr
      intro a ha
      exact Bool.and_comm _ _
    rw [hcomm, hfil]
    simp

theorem find?_name_decomp (rules : List (Rule σ)) (name : String) :
    (rules.find? (fun rule => rule.name == some name) = none ↔
      ∀ r ∈ rules, r.name ≠ some name) ∧
    (∀ x, rules.find? (fun rule => rule.name == some name) = some x →
      x.name = some name ∧ ∃ pre post, rules = pre ++ x :: post ∧
        ∀ r ∈ pre, r.name ≠ some name) := by
  induction rules with
  | nil =>
    constructor
    · simp
    · intro x hx; cases hx
  | cons a l ih =>
    by_cases ha : a.name = some name
    · have hpa : (a.name == some name) = true := beq_iff_eq.mpr ha
      have hfind : (a :: l).find? (fun rule => rule.name == some name) =
          some a := by
        simp [List.find?, hpa]
      rw [hfind]
      constructor
      · constructor
        · intro hcontra; cases hcontra
        · intro hall
          exact absurd ha (hall a (List.mem_cons_self _ _))
      · intro x hx
        injection hx with hx
        subst hx
        exact ⟨ha, [], l, rfl, by intro r hr; cases hr⟩
    · have hpa : (a.name == some name) = false := by
        rw [beq_eq_false_iff_ne]
        exact ha
      have hfind : (a :: l).find? (fun rule => rule.name == some name) =
          l.find? (fun rule => rule.name == some name) := by
        simp [List.find?, hpa]
      rw [hfind]
      constructor
      · rw [ih.1]
        constructor
        · intro hall r hr
          rcases List.mem_cons.mp hr with rfl | hr
          · exact ha
          · exact hall r hr
        · intro hall r hr
          exact hall r (List.mem_cons_of_mem _ hr)
      · intro x hx
        obtain ⟨hxn, pre, post, hdec, hpre⟩ := ih.2 x hx
        refine ⟨hxn, a :: pre, post, ?_, ?_⟩
        · rw [hdec, List.cons_append]
        · intro r hr
          rcases List.mem_cons.mp hr with rfl | hr
          · exact ha
          · exact hpre r hr

/-! ### Lemmas about the timestamp machinery -/

theorem length_padChars (k n : Nat) : (padChars k n).length = k := by
  induction k generalizing n with
  | zero => rfl
  | succ k ih => simp [padChars, ih]

theorem isDigitCh_natDigit {d : Nat} (h : d < 10) : isDigitCh (natDigit d) = true := by
  interval_cases d <;> decide

theorem digits_padChars (k n : Nat) : ∀ c ∈ padChars k n, isDigitCh c = true := by
  induction k generalizing n with
  | zero => intro c hc; simp [padChars] at hc
  | succ k ih =>
    intro c hc
    simp only [padChars, List.mem_append, List.mem_singleton] at hc
    rcases hc with hc | hc
    · exact ih _ c hc
    · subst hc; exact isDigitCh_natDigit (Nat.mod_lt _ (by omega))

theorem checkDigits_of_digits {l : List Char} (hd : ∀ c ∈ l, isDigitCh c = true)
    (rest : List Char) : checkDigits l.length (l ++ rest) = some rest := by
  induction l with
  | nil => rfl
  | cons c cs ih =>
    simp only [List.length_cons, List.cons_append, checkDigits]
    rw [if_pos (hd c (List.mem_cons_self _ _))]
    exact ih fun x hx => hd x (List.mem_cons_of_mem _ hx)

theorem checkDigits_padChars (k n : Nat) (rest : List Char) :
    checkDigits k (padChars k n ++ rest) = some rest := by
  have h := checkDigits_of_digits (digits_padChars k n) rest
  rwa [length_padChars] at h

theorem replacePlus00_cons_ne {c : Char} (l : List Char) (h : c ≠ '+') :
    replacePlus00 (c :: l) = c :: replacePlus00 l := by
  conv_lhs => unfold replacePlus00
  split
  · simp_all
  · rename_i c2 rest2 hno heq
    injection heq with h1 h2
    subst h1
    subst h2
    rfl
  · rename_i hx heq
    exact absurd heq (List.cons_ne_nil _ _)

theorem replacePlus00_append {base : List Char} (h : ∀ c ∈ base, c ≠ '+') :
    replacePlus00 (base ++ ['+', '0', '0', ':', '0', '0']) = base ++ ['Z'] := by
  induction base with
  | nil => rfl
  | cons c cs ih =>
    rw [List.cons_append, replacePlus00_cons_ne _ (h c (List.mem_cons_self _ _)),
      ih fun x hx => h x (List.mem_cons_of_mem _ hx), List.cons_append]

theorem plus_not_mem_padChars (k n : Nat) : '+' ∉ padChars k n := by
  intro hc
  exact absurd (digits_padChars k n '+' hc) (by decide)

theorem noPlus_append {l1 l2 : List Char} (h1 : ∀ c ∈ l1, c ≠ '+')
    (h2 : ∀ c ∈ l2, c ≠ '+') : ∀ c ∈ l1 ++ l2, c ≠ '+' := by
  intro c hc
  rcases List.mem_append.mp hc with h | h
  exacts [h1 c h, h2 c h]

theorem noPlus_cons {a : Char} {l : List Char} (ha : a ≠ '+')
    (h : ∀ c ∈ l, c ≠ '+') : ∀ c ∈ a :: l, c ≠ '+' := by
  intro c hc
  rcases List.mem_cons.mp hc with h' | h'
  · subst h'; exact ha
  · exact h c h'

theorem noPlus_pad (k n : Nat) : ∀ c ∈ padChars k n, c ≠ '+' := by
  intro c hc hp
  subst hp
  exact plus_not_mem_padChars k n hc

theorem noPlus_nil : ∀ c ∈ ([] : List Char), c ≠ '+' := by
  intro c hc
  cases hc

theorem plus_not_mem_isoCharsNoTz (d : DateTime) : ∀ c ∈ isoCharsNoTz d, c ≠ '+' := by
  unfold isoCharsNoTz
  refine noPlus_append (noPlus_pad _ _) (noPlus_cons (by decide) ?_)
  refine noPlus_append (noPlus_pad _ _) (noPlus_cons (by decide) ?_)
  refine noPlus_append (noPlus_pad _ _) (noPlus_cons (by decide) ?_)
  refine noPlus_append (noPlus_pad _ _) (noPlus_cons (by decide) ?_)
  refine noPlus_append (noPlus_pad _ _) (noPlus_cons (by decide) ?_)
  refine noPlus_append (noPlus_pad _ _) ?_
  by_cases hm : d.micro = 0
  · rw [if_pos hm]; exact noPlus_nil
  · rw [if_neg hm]; exact noPlus_cons (by decide) (noPlus_pad _ _)

theorem replacePlus00_isoCharsAware (d : DateTime) :
    replacePlus00 (isoCharsAware d) = isoCharsNoTz d ++ ['Z'] :=
  replacePlus00_append (plus_not_mem_isoCharsNoTz d)

/-- The stamped string is always a Z-suffixed UTC ISO-8601 timestamp
(the fixed-width padding produces digits for every field value). -/
theorem isUtcIsoZ_pyIsoUtcZ (d : DateTime) :
    isUtcIsoZ (pyIsoUtcZ d) = true := by
  unfold isUtcIsoZ pyIsoUtcZ
  rw [show (String.mk (replacePlus00 (isoCharsAware d))).data =
      replacePlus00 (isoCharsAware d) from rfl,
    replacePlus00_isoCharsAware d]
  unfold isoCharsNoTz
  by_cases hm : d.micro = 0 <;>
    simp [hm, isUtcIsoZChars, checkChar, checkDigits_padChars, List.append_assoc]

/-! ### Chained upsert lemma -/

theorem createRuleUpsert_twice {σ : Type} (s0 s1 s2 : Server σ)
    (id1 id2 : Nat) (name : String) (spA spB : σ)
    (h : (rulesNamed name s0.rules).length ≤ 1)
    (h1 : createRuleUpsert (serverListResponse s0) name spA s0 = (s1, id1))
    (h2 : createRuleUpsert (serverListResponse s1) name spB s1 = (s2, id2)) :
    rulesNamed name s2.rules =
      [{ id := id2, name := some name, spec := spB }] ∧ id2 ≠ id1 := by
  have hb1 : rulesNamed name s1.rules =
      [{ id := s0.nextId, name := some name, spec := spA }] := by
    have hx := (createRuleUpsert_served s0 name spA h).1
    rw [h1] at hx
    exact hx
  have hb2 : id1 = s0.nextId := by
    have hx := (createRuleUpsert_served s0 name spA h).2.1
    rw [h1] at hx
    exact hx
  have hb3 : s1.nextId = s0.nextId + 1 := by
    have hx := (createRuleUpsert_served s0 name spA h).2.2
    rw [h1] at hx
    exact hx
  have hcount : (rulesNamed name s1.rules).length ≤ 1 := by
    rw [hb1]
    simp
  have hc1 : rulesNamed name s2.rules =
      [{ id := s1.nextId, name := some name, spec := spB }] := by
    have hx := (createRuleUpsert_served s1 name spB hcount).1
    rw [h2] at hx
    exact hx
  have hc2 : id2 = s1.nextId := by
    have hx := (createRuleUpsert_served s1 name spB hcount).2.1
    rw [h2] at hx
    exact hx
  constructor
  · rw [hc1, hc2]
  · rw [hc2, hb3, hb2]
    omega

/-! ### Claim theorems -/

theorem users_ids_fold (msgs : List Msg) (g1 : RNG) :
    (generate_mongodb_data msgs g1).1.users.map (fun u => u._id) =
      msgs.foldl (fun a m =>
        match m.payload.lookup "user_id" with
        | some v => addSet a v
        | none => a) [] := by
  show (mapRand generate_user_data (collectRefIds msgs).1 g1).1.map
    (fun u => u._id) = _
  rw [mapRand_users_ids, collectRefIds_eq]

theorem products_ids_fold (msgs : List Msg) (g1 : RNG) :
    (generate_mongodb_data msgs g1).1.products.map (fun p => p._id) =
      msgs.foldl (fun a m =>
        match m.payload.lookup "product_id" with
        | some v => addSet a v
        | none => a) [] := by
  show (mapRand generate_product_data (collectRefIds msgs).2
    (mapRand generate_user_data (collectRefIds msgs).1 g1).2).1.map
    (fun p => p._id) = _
  rw [mapRand_products_ids, collectRefIds_eq]

theorem order_keys_map (msgs : List Msg) (g2 : RNG) :
    (generate_redis_order_data msgs g2).1.map (fun e => e.1) =
      (collectOrderIds msgs).map (fun oid => "order:" ++ pvalStr oid) :=
  mapRand_order_keys (collectOrderIds msgs) g2

/-- C1: closure invariant of the derived reference datasets.  For any list
of event envelopes and any random state: the profile-record ids are exactly
the distinct `payload["user_id"]` values, the product-record ids exactly the
distinct `payload["product_id"]` values of envelopes carrying that field,
and the order-extension keys exactly `"order:" ++ id` for the distinct
`payload["order_id"]` values — with one record per distinct id and no
duplicates. -/
theorem C1_closure_invariant (msgs : List Msg) (g1 g2 : RNG) :
    (∀ v : PVal,
      (∃ u ∈ (generate_mongodb_data msgs g1).1.users, u._id = v) ↔
        ∃ m ∈ msgs, m.payload.lookup "user_id" = some v) ∧
    (∀ v : PVal,
      (∃ p ∈ (generate_mongodb_data msgs g1).1.products, p._id = v) ↔
        ∃ m ∈ msgs, m.payload.lookup "product_id" = some v) ∧
    (∀ k : String,
      (∃ e ∈ (generate_redis_order_data msgs g2).1, e.1 = k) ↔
        ∃ v : PVal, (∃ m ∈ msgs, m.payload.lookup "order_id" = some v) ∧
          k = "order:" ++ pvalStr v) ∧
    ((generate_mongodb_data msgs g1).1.users.map (fun u => u._id)).Nodup ∧
    ((generate_mongodb_data msgs g1).1.products.map (fun p => p._id)).Nodup ∧
    (collectOrderIds msgs).Nodup ∧
    (generate_redis_order_data msgs g2).1.length =
      (collectOrderIds msgs).length := by
  refine ⟨?_, ?_, ?_, ?_, ?_, ?_, ?_⟩
  · intro v
    constructor
    · rintro ⟨u, hu, rfl⟩
      have hv : u._id ∈ (generate_mongodb_data msgs g1).1.users.map
          (fun u => u._id) := List.mem_map_of_mem _ hu
      rw [users_ids_fold] at hv
      rcases (mem_foldl_idStep "user_id" msgs [] u._id).mp hv with h | h
      · cases h
      · exact h
    · intro hex
      have hv := (mem_foldl_idStep "user_id" msgs [] v).mpr (Or.inr hex)
      rw [← users_ids_fold msgs g1] at hv
      obtain ⟨u, hu, hid⟩ := List.mem_map.mp hv
      exact ⟨u, hu, hid⟩
  · intro v
    constructor
    · rintro ⟨p, hp, rfl⟩
      have hv : p._id ∈ (generate_mongodb_data msgs g1).1.products.map
          (fun p => p._id) := List.mem_map_of_mem _ hp
      rw [products_ids_fold] at hv
      rcases (mem_foldl_idStep "product_id" msgs [] p._id).mp hv with h | h
      · cases h
      · exact h
    · intro hex
      have hv := (mem_foldl_idStep "product_id" msgs [] v).mpr (Or.inr hex)
      rw [← products_ids_fold msgs g1] at hv
      obtain ⟨p, hp, hid⟩ := List.mem_map.mp hv
      exact ⟨p, hp, hid⟩
  · intro k
    constructor
    · rintro ⟨e, he, rfl⟩
      have hk : e.1 ∈ (generate_redis_order_data msgs g2).1.map
          (fun e => e.1) := List.mem_map_of_mem _ he
      rw [order_keys_map] at hk
      obtain ⟨oid, hoid, hkey⟩ := List.mem_map.mp hk
      rw [collectOrderIds_eq] at hoid
      rcases (mem_foldl_idStep "order_id" msgs [] oid).mp hoid with h | h
      · cases h
      · exact ⟨oid, h, hkey.symm⟩
    · rintro ⟨v, hex, rfl⟩
      have hv := (mem_foldl_idStep "order_id" msgs [] v).mpr (Or.inr hex)
      rw [← collectOrderIds_eq] at hv
      have hk : ("order:" ++ pvalStr v) ∈
          (collectOrderIds msgs).map (fun oid => "order:" ++ pvalStr oid) :=
        List.mem_map_of_mem _ hv
      rw [← order_keys_map msgs g2] at hk
      obtain ⟨e, he, hkey⟩ := List.mem_map.mp hk
      exact ⟨e, he, hkey⟩
  · rw [users_ids_fold]
    exact nodup_foldl_idStep "user_id" msgs [] List.nodup_nil
  · rw [products_ids_fold]
    exact nodup_foldl_idStep "product_id" msgs [] List.nodup_nil
  · rw [collectOrderIds_eq]
    exact nodup_foldl_idStep "order_id" msgs [] List.nodup_nil
  · exact mapRand_length _ (collectOrderIds msgs) g2

/-- C6: every generated amount equals itself rounded to 2 decimal places
and lies in the closed interval [10.00, 10000.00]. -/
theorem C6_amount_rounding (g : RNG) :
    round2 (generate_amount g).1 = (generate_amount g).1 ∧
    10 ≤ (generate_amount g).1 ∧ (generate_amount g).1 ≤ 10000 := by
  have hu := pyUniform_bounds (show (10 : ℚ) ≤ 10000 by norm_num) g
  have h1 : (generate_amount g).1 = round2 (pyUniform 10 10000 g).1 := rfl
  refine ⟨?_, ?_, ?_⟩
  · rw [h1, round2_round2]
  · rw [h1]
    calc (10 : ℚ) = round2 10 := round2_ten.symm
    _ ≤ round2 (pyUniform 10 10000 g).1 := round2_mono hu.1
  · rw [h1]
    calc round2 (pyUniform 10 10000 g).1 ≤ round2 10000 := round2_mono hu.2
    _ = 10000 := round2_tenThousand

theorem payment_message_fields (now : DateTime) (g : RNG) :
    (((generate_payment_message now g).1.payload.lookup "order_id").isSome
        = true) ∧
    (((generate_payment_message now g).1.payload.lookup "user_id").isSome
        = true) ∧
    (((generate_payment_message now g).1.payload.lookup "amount").isSome
        = true) ∧
    (((generate_payment_message now g).1.payload.lookup "currency").isSome
        = true) ∧
    (((generate_payment_message now g).1.payload.lookup "status").isSome
        = true) ∧
    (((generate_payment_message now g).1.payload.lookup "created_at").isSome
        = true) ∧
    (((generate_payment_message now g).1.payload.lookup "product_id").isSome
        = (pyChoice [true, false] true g).1) := by
  cases hhp : (pyChoice [true, false] true g).1 <;>
    simp [generate_payment_message, hhp, List.lookup]

/-- C7: `generate_messages(count)` yields exactly `count` envelopes; every
envelope is one produced by `generate_payment_message`, so its payload
carries the six required fields; and an envelope carries `product_id`
exactly when its own `random.choice([True, False])` flip chose
inclusion. -/
theorem C7_generate_messages_spec (now : DateTime) (count : Nat) (g : RNG) :
    (generate_messages now count g).1.length = count ∧
    ∀ m ∈ (generate_messages now count g).1,
      ∃ h : RNG, m = (generate_payment_message now h).1 ∧
        (m.payload.lookup "order_id").isSome = true ∧
        (m.payload.lookup "user_id").isSome = true ∧
        (m.payload.lookup "amount").isSome = true ∧
        (m.payload.lookup "currency").isSome = true ∧
        (m.payload.lookup "status").isSome = true ∧
        (m.payload.lookup "created_at").isSome = true ∧
        (m.payload.lookup "product_id").isSome =
          (pyChoice [true, false] true h).1 := by
  induction count generalizing g with
  | zero =>
    refine ⟨rfl, ?_⟩
    intro m hm
    cases hm
  | succ n ih =>
    constructor
    · have hlen := (ih (generate_payment_message now g).2).1
      show ((generate_payment_message now g).1 ::
        (generate_messages now n (generate_payment_message now g).2).1).length
          = n + 1
      rw [List.length_cons, hlen]
    · intro m hm
      have hm2 : m ∈ (generate_payment_message now g).1 ::
          (generate_messages now n (generate_payment_message now g).2).1 := hm
      rcases List.mem_cons.mp hm2 with rfl | hmem
      · obtain ⟨h1, h2, h3, h4, h5, h6, h7⟩ := payment_message_fields now g
        exact ⟨g, rfl, h1, h2, h3, h4, h5, h6, h7⟩
      · exact (ih (generate_payment_message now g).2).2 m hmem

/-- C7 witness: one envelope generated from the empty random stream carries
all required fields, and its `product_id` presence matches its coin flip. -/
theorem C7_generate_messages_spec_witness :
    ∃ h : RNG,
      (generate_payment_message ⟨2024, 5, 17, 12, 30, 45, 123456⟩ []).1 =
        (generate_payment_message ⟨2024, 5, 17, 12, 30, 45, 123456⟩ h).1 ∧
      (((generate_payment_message ⟨2024, 5, 17, 12, 30, 45, 123456⟩
          []).1.payload.lookup "order_id").isSome = true) ∧
      (((generate_payment_message ⟨2024, 5, 17, 12, 30, 45, 123456⟩
          []).1.payload.lookup "user_id").isSome = true) ∧
      (((generate_payment_message ⟨2024, 5, 17, 12, 30, 45, 123456⟩
          []).1.payload.lookup "amount").isSome = true) ∧
      (((generate_payment_message ⟨2024, 5, 17, 12, 30, 45, 123456⟩
          []).1.payload.lookup "currency").isSome = true) ∧
      (((generate_payment_message ⟨2024, 5, 17, 12, 30, 45, 123456⟩
          []).1.payload.lookup "status").isSome = true) ∧
      (((generate_payment_message ⟨2024, 5, 17, 12, 30, 45, 123456⟩
          []).1.payload.lookup "created_at").isSome = true) ∧
      (((generate_payment_message ⟨2024, 5, 17, 12, 30, 45, 123456⟩
          []).1.payload.lookup "product_id").isSome =
        (pyChoice [true, false] true h).1) :=
  (C7_generate_messages_spec ⟨2024, 5, 17, 12, 30, 45, 123456⟩ 1 []).2
    (generate_payment_message ⟨2024, 5, 17, 12, 30, 45, 123456⟩ []).1
    (List.Mem.head _)

/-- C3: publishing an envelope that has `id` and `payload` but lacks the
`timestamp` and `metadata` keys yields a sent value containing both keys —
`metadata` the empty object, `timestamp` the current UTC instant as a
parseable Z-suffixed ISO-8601 string — keyed by the envelope's id on the
given topic. -/
theorem C3_envelope_stamping (now : DateTime) (topic : String)
    (env : List (String × EVal)) (i : EVal)
    (hts : env.lookup "timestamp" = none)
    (hmd : env.lookup "metadata" = none)
    (hid : env.lookup "id" = some i)
    (hpl : (env.lookup "payload").isSome = true) :
    send_envelope now topic env = some
      { topic := topic, key := i,
        value := env ++ [("timestamp", EVal.s (pyIsoUtcZ now)),
          ("metadata", EVal.obj [])] } ∧
    ((env ++ [("timestamp", EVal.s (pyIsoUtcZ now)),
      ("metadata", EVal.obj [])]).lookup "timestamp" =
        some (EVal.s (pyIsoUtcZ now))) ∧
    ((env ++ [("timestamp", EVal.s (pyIsoUtcZ now)),
      ("metadata", EVal.obj [])]).lookup "metadata" =
        some (EVal.obj [])) ∧
    isUtcIsoZ (pyIsoUtcZ now) = true := by
  have hmd1 : ((env ++ [("timestamp", EVal.s (pyIsoUtcZ now))]).lookup
      "metadata") = none := by
    rw [lookup_append_none hmd]
    rfl
  have henv2 : (env ++ [("timestamp", EVal.s (pyIsoUtcZ now))]) ++
      [("metadata", EVal.obj [])] =
      env ++ [("timestamp", EVal.s (pyIsoUtcZ now)),
        ("metadata", EVal.obj [])] := by
    rw [List.append_assoc]
    rfl
  have hid2 : (env ++ [("timestamp", EVal.s (pyIsoUtcZ now)),
      ("metadata", EVal.obj [])]).lookup "id" = some i :=
    lookup_append_some hid
  have hval : send_envelope now topic env = some
      { topic := topic, key := i,
        value := env ++ [("timestamp", EVal.s (pyIsoUtcZ now)),
          ("metadata", EVal.obj [])] } := by
    unfold send_envelope
    simp only [hts, Option.isSome_none, Bool.false_eq_true, if_false, hmd1,
      henv2, hid2]
  refine ⟨hval, ?_, ?_, isUtcIsoZ_pyIsoUtcZ now⟩
  · rw [lookup_append_none hts]
    rfl
  · rw [lookup_append_none hmd]
    rfl

/-- C2 (amended): starting from a server state holding at most one rule
with the given name — the invariant a provisioning run maintains —
`create(name, specA)` followed by `create(name, specB)` leaves exactly one
rule with that name, carrying specB's attributes, and the id returned by the
second call differs from the first (delete-then-create, not update).
Stated for both the filtering and the enrichment endpoint. -/
theorem C2_idempotent_provisioning :
    (∀ (s0 s1 s2 : Server FSpec) (id1 id2 : Nat) (name eA eB : String)
      (pA pB : Int),
      (rulesNamed name s0.rules).length ≤ 1 →
      create_filtering_rule (serverListResponse s0) name eA pA s0 =
        (s1, id1) →
      create_filtering_rule (serverListResponse s1) name eB pB s1 =
        (s2, id2) →
      rulesNamed name s2.rules =
        [{ id := id2, name := some name,
           spec := { expression := eB, priority := pB, enabled := true } }] ∧
      id2 ≠ id1) ∧
    (∀ (s0 s1 s2 : Server ESpec) (id1 id2 : Nat) (rA rB : EInput),
      rA.name = rB.name →
      (rulesNamed rB.name s0.rules).length ≤ 1 →
      create_enrichment_rule (serverListResponse s0) rA s0 = (s1, id1) →
      create_enrichment_rule (serverListResponse s1) rB s1 = (s2, id2) →
      rulesNamed rB.name s2.rules =
        [{ id := id2, name := some rB.name, spec := especOfInput rB }] ∧
      id2 ≠ id1) := by
  constructor
  · intro s0 s1 s2 id1 id2 name eA eB pA pB h h1 h2
    exact createRuleUpsert_twice s0 s1 s2 id1 id2 name
      { expression := eA, priority := pA, enabled := true }
      { expression := eB, priority := pB, enabled := true } h h1 h2
  · intro s0 s1 s2 id1 id2 rA rB hname h h1 h2
    have h1x : createRuleUpsert (serverListResponse s0) rB.name
        (especOfInput rA) s0 = (s1, id1) := by
      have hx : createRuleUpsert (serverListResponse s0) rA.name
          (especOfInput rA) s0 = (s1, id1) := h1
      rwa [hname] at hx
    exact createRuleUpsert_twice s0 s1 s2 id1 id2 rB.name
      (especOfInput rA) (especOfInput rB) h h1x h2

/-- C2 counterexample: from a server state already holding two rules named
`"n"`, the two provisioning calls leave two rules named `"n"`, not one —
the claim fails for arbitrary starting states. -/
theorem C2_idempotent_provisioning_counterexample :
    (rulesNamed "n" c2DupRun2.1.rules).length = 2 ∧
    (rulesNamed "n" c2DupRun2.1.rules).length ≠ 1 := by decide

/-- C2 witness: from the empty server state, provisioning the filtering rule
`"n"` twice leaves exactly the second rule, with a fresh id. -/
theorem C2_idempotent_provisioning_witness :
    rulesNamed "n" c2Run2.1.rules =
      [{ id := c2Run2.2, name := some "n",
         spec := { expression := "b", priority := 2, enabled := true } }] ∧
    c2Run2.2 ≠ c2Run1.2 :=
  C2_idempotent_provisioning.1 c2EmptyServer c2Run1.1 c2Run2.1 c2Run1.2
    c2Run2.2 "n" "a" "b" 1 2 (by decide) rfl rfl

/-- C4: a failed list/lookup request (transport error or non-2xx, both
raised as `RequestException`) is swallowed: the lookup reports
"no matching rule", and a subsequent create posts a fresh rule without any
preceding delete — so when a rule with the name already exists, the server
ends up with two rules sharing it. -/
theorem C4_lookup_fail_open (s : Server FSpec) (name expression : String)
    (priority : Int) :
    list_filtering_rules GetListResult.exn = [] ∧
    get_filtering_rule_by_name GetListResult.exn name = none ∧
    (create_filtering_rule GetListResult.exn name expression priority s).1.rules
      = s.rules ++
        [{ id := s.nextId, name := some name,
           spec := { expression := expression, priority := priority,
                     enabled := true } }] ∧
    (1 ≤ (rulesNamed name s.rules).length →
      2 ≤ (rulesNamed name
        (create_filtering_rule GetListResult.exn name expression priority
          s).1.rules).length) := by
  refine ⟨rfl, rfl, rfl, ?_⟩
  intro hex
  have heq : rulesNamed name
      (create_filtering_rule GetListResult.exn name expression priority
        s).1.rules =
      rulesNamed name s.rules ++
        rulesNamed name
          [{ id := s.nextId, name := some name,
             spec := { expression := expression, priority := priority,
                       enabled := true } }] := by
    unfold rulesNamed
    exact List.filter_append _ _
  have hone : (rulesNamed name
      [({ id := s.nextId, name := some name,
          spec := { expression := expression, priority := priority,
                    enabled := true } } : Rule FSpec)]).length = 1 := by
    unfold rulesNamed
    simp
  rw [heq, List.length_append, hone]
  omega

/-- C4 witness: with one rule named `"n"` on the server and the lookup
failing, the create issues no delete and leaves two rules named `"n"`. -/
theorem C4_lookup_fail_open_witness :
    get_filtering_rule_by_name GetListResult.exn "n" = none ∧
    2 ≤ (rulesNamed "n"
      (create_filtering_rule GetListResult.exn "n" "e2" 5
        c4OneRuleServer).1.rules).length :=
  ⟨(C4_lookup_fail_open c4OneRuleServer "n" "e2" 5).2.1,
   (C4_lookup_fail_open c4OneRuleServer "n" "e2" 5).2.2.2 (by decide)⟩

/-- C5 (amended): a 4xx or 5xx response to any rule mutation raises
immediately with the remote status (3xx responses do not raise, since
`raise_for_status` only covers 4xx/5xx); enrichment-rule creation logs the
status, the response body (or raw text when it fails to parse) and the
request payload before the error propagates; filtering-rule creation raises
without logging. -/
theorem C5_mutation_errors (r : Resp) (name : String) (payload : EVal)
    (h4 : 400 ≤ r.status) (h6 : r.status < 600) :
    (delete_filtering_rule_http r).1 = Except.error r.status ∧
    (update_filtering_rule_http r).1 = Except.error r.status ∧
    (delete_enrichment_rule_http r).1 = Except.error r.status ∧
    create_filtering_rule_http r = (Except.error r.status, []) ∧
    (create_enrichment_rule_http name payload r).1 = Except.error r.status ∧
    LogLine.payloadSent payload ∈
      (create_enrichment_rule_http name payload r).2 ∧
    LogLine.errorCreating name r.status ∈
      (create_enrichment_rule_http name payload r).2 ∧
    (∀ d, r.jsonBody = some d → LogLine.errorResponse d ∈
      (create_enrichment_rule_http name payload r).2) ∧
    (r.jsonBody = none → LogLine.responseText r.text ∈
      (create_enrichment_rule_http name payload r).2) := by
  have hrs : raise_for_status r = Except.error r.status := by
    unfold raise_for_status
    rw [if_pos ⟨h4, h6⟩]
  have hnok : ¬ (r.status < 400) := by omega
  refine ⟨?_, ?_, ?_, ?_, ?_, ?_, ?_, ?_, ?_⟩
  · show raise_for_status r = _
    exact hrs
  · show raise_for_status r = _
    exact hrs
  · show raise_for_status r = _
    exact hrs
  · unfold create_filtering_rule_http
    rw [hrs]
  · unfold create_enrichment_rule_http
    rw [if_neg hnok, hrs]
  · unfold create_enrichment_rule_http
    rw [if_neg hnok]
    cases hb : r.jsonBody <;> simp
  · unfold create_enrichment_rule_http
    rw [if_neg hnok]
    cases hb : r.jsonBody <;> simp
  · intro d hd
    unfold create_enrichment_rule_http
    rw [if_neg hnok, hd]
    simp
  · intro hd
    unfold create_enrichment_rule_http
    rw [if_neg hnok, hd]
    simp

/-- C5 counterexample: a 303 response is non-2xx, yet the delete operation
does not raise (`raise_for_status` covers only 4xx/5xx); and a failing
filtering-rule creation (status 500) logs nothing at all — so neither
"every non-2xx raises" nor "creation logs the bodies" holds as stated. -/
theorem C5_mutation_errors_counterexample :
    (delete_filtering_rule_http
      { status := 303, jsonBody := none, text := "" }).1 = Except.ok () ∧
    (create_filtering_rule_http
      { status := 500, jsonBody := none, text := "" }).2 = [] :=
  ⟨rfl, rfl⟩

/-- C5 witness: a concrete 422 response makes every mutation raise with
status 422, and enrichment creation logs the error body and the payload. -/
theorem C5_mutation_errors_witness :
    (delete_filtering_rule_http c5Resp422).1 = Except.error 422 ∧
    create_filtering_rule_http c5Resp422 = (Except.error 422, []) ∧
    (create_enrichment_rule_http "rule-x" (EVal.obj []) c5Resp422).1 =
      Except.error 422 ∧
    LogLine.payloadSent (EVal.obj []) ∈
      (create_enrichment_rule_http "rule-x" (EVal.obj []) c5Resp422).2 ∧
    LogLine.errorResponse (EVal.obj [("message", EVal.s "bad")]) ∈
      (create_enrichment_rule_http "rule-x" (EVal.obj []) c5Resp422).2 :=
  have h := C5_mutation_errors c5Resp422 "rule-x" (EVal.obj [])
    (by decide) (by decide)
  ⟨h.1, h.2.2.2.1, h.2.2.2.2.1, h.2.2.2.2.2.1,
   h.2.2.2.2.2.2.2.1 (EVal.obj [("message", EVal.s "bad")]) rfl⟩

/-- C8: when the generated dataset file is absent, each loader prints the
file-not-found line and the instruction to run generation first, then
returns without raising and without attempting any store write — whatever
the store's health. -/
theorem C8_missing_file_graceful (dbError redisError : Bool) :
    (load_mongodb_data none dbError).writes = [] ∧
    (load_mongodb_data none dbError).raised = false ∧
    (load_mongodb_data none dbError).log =
      [.fileNotFound "mongodb_data.json", .runGenerateFirst] ∧
    LoadLog.runGenerateFirst ∈ (load_mongodb_data none dbError).log ∧
    (load_redis_data none redisError).writes = [] ∧
    (load_redis_data none redisError).raised = false ∧
    (load_redis_data none redisError).log =
      [.fileNotFound "redis_data.json", .runGenerateFirst] ∧
    LoadLog.runGenerateFirst ∈ (load_redis_data none redisError).log := by
  refine ⟨rfl, rfl, rfl, ?_, rfl, rfl, rfl, ?_⟩ <;>
    simp [load_mongodb_data, load_redis_data]

/-- C9: a 2xx list response whose JSON body is not a list (an object,
`null`, a number, …) yields the empty rule list from both listing
functions — indistinguishable from the transport-failure result. -/
theorem C9_nonlist_body_as_empty :
    list_filtering_rules (GetListResult.ok RespBody.jother) = [] ∧
    list_enrichment_rules (GetListResult.ok RespBody.jother) = [] ∧
    list_filtering_rules (GetListResult.ok RespBody.jother) =
      list_filtering_rules GetListResult.exn ∧
    list_enrichment_rules (GetListResult.ok RespBody.jother) =
      list_enrichment_rules GetListResult.exn :=
  ⟨rfl, rfl, rfl, rfl⟩

/-- C10: the by-name getters return the first rule in server list order
whose name field equals the argument — rules lacking a name field are
skipped — and return `None` exactly when no listed rule matches.  Stated
for both the filtering and the enrichment getter. -/
theorem C10_get_by_name_first_match :
    (∀ (rules : List (Rule FSpec)) (name : String),
      (get_filtering_rule_by_name (.ok (.jlist rules)) name = none ↔
        ∀ r ∈ rules, r.name ≠ some name) ∧
      (∀ x, get_filtering_rule_by_name (.ok (.jlist rules)) name = some x →
        x.name = some name ∧ ∃ pre post, rules = pre ++ x :: post ∧
          ∀ r ∈ pre, r.name ≠ some name)) ∧
    (∀ (rules : List (Rule ESpec)) (name : String),
      (get_enrichment_rule_by_name (.ok (.jlist rules)) name = none ↔
        ∀ r ∈ rules, r.name ≠ some name) ∧
      (∀ x, get_enrichment_rule_by_name (.ok (.jlist rules)) name = some x →
        x.name = some name ∧ ∃ pre post, rules = pre ++ x :: post ∧
          ∀ r ∈ pre, r.name ≠ some name)) := by
  constructor
  · intro rules name
    have hg : get_filtering_rule_by_name (.ok (.jlist rules)) name =
        rules.find? (fun rule => rule.name == some name) := by
      rw [show get_filtering_rule_by_name (.ok (.jlist rules)) name =
        getRuleByName (.ok (.jlist rules)) name from rfl,
        getRuleByName_eq_find?]
      rfl
    rw [hg]
    exact find?_name_decomp rules name
  · intro rules name
    have hg : get_enrichment_rule_by_name (.ok (.jlist rules)) name =
        rules.find? (fun rule => rule.name == some name) := by
      rw [show get_enrichment_rule_by_name (.ok (.jlist rules)) name =
        getRuleByName (.ok (.jlist rules)) name from rfl,
        getRuleByName_eq_find?]
      rfl
    rw [hg]
    exact find?_name_decomp rules name

/-- C10 witness: on a concrete list holding a nameless rule and two rules
named `"a"`, the getter returns the earliest rule named `"a"`, skipping the
nameless one. -/
theorem C10_get_by_name_first_match_witness :
    ({ id := 1, name := some "a",
       spec := { expression := "y", priority := 2, enabled := true } } :
        Rule FSpec).name = some "a" ∧
    ∃ pre post, c10DemoRules = pre ++
      ({ id := 1, name := some "a",
         spec := { expression := "y", priority := 2, enabled := true } } :
          Rule FSpec) :: post ∧
      ∀ r ∈ pre, r.name ≠ some "a" :=
  (C10_get_by_name_first_match.1 c10DemoRules "a").2
    { id := 1, name := some "a",
      spec := { expression := "y", priority := 2, enabled := true } }
    (by decide)

/-- C3 witness: a concrete bare envelope published at a concrete instant is
stamped with the empty metadata object and a parseable UTC timestamp, and
sent keyed by its id. -/
theorem C3_envelope_stamping_witness :
    send_envelope ⟨2024, 5, 17, 12, 30, 45, 123456⟩ "input_events"
      [("id", EVal.s "payment-order-001"), ("source", EVal.s "payment-service"),
       ("payload", EVal.obj [])] = some
      { topic := "input_events", key := EVal.s "payment-order-001",
        value := [("id", EVal.s "payment-order-001"),
          ("source", EVal.s "payment-service"), ("payload", EVal.obj [])] ++
          [("timestamp",
            EVal.s (pyIsoUtcZ ⟨2024, 5, 17, 12, 30, 45, 123456⟩)),
           ("metadata", EVal.obj [])] } ∧
    (([("id", EVal.s "payment-order-001"), ("source", EVal.s "payment-service"),
       ("payload", EVal.obj [])] ++
      [("timestamp", EVal.s (pyIsoUtcZ ⟨2024, 5, 17, 12, 30, 45, 123456⟩)),
       ("metadata", EVal.obj [])]).lookup "timestamp" =
        some (EVal.s (pyIsoUtcZ ⟨2024, 5, 17, 12, 30, 45, 123456⟩))) ∧
    (([("id", EVal.s "payment-order-001"), ("source", EVal.s "payment-service"),
       ("payload", EVal.obj [])] ++
      [("timestamp", EVal.s (pyIsoUtcZ ⟨2024, 5, 17, 12, 30, 45, 123456⟩)),
       ("metadata", EVal.obj [])]).lookup "metadata" =
        some (EVal.obj [])) ∧
    isUtcIsoZ (pyIsoUtcZ ⟨2024, 5, 17, 12, 30, 45, 123456⟩) = true :=
  C3_envelope_stamping ⟨2024, 5, 17, 12, 30, 45, 123456⟩ "input_events"
    [("id", EVal.s "payment-order-001"), ("source", EVal.s "payment-service"),
     ("payload", EVal.obj [])] (EVal.s "payment-order-001") rfl rfl rfl rfl

end Yeti
